import Mathlib

/-!
Verification of the Rule Guardian moderation pipeline (src/ruleGuardian.js).

Message text is modelled as a list of characters (`Str`).  The compiled
regular expressions of `buildDetectors` are modelled by executable matching
functions over `Str`:

* a restricted-term or price-keyword check compiles the escaped term inside
  word boundaries with the case-insensitive flag; this is modelled by
  `wholeWordTest` (literal case-insensitive match flanked by word boundaries,
  where a word character is `[A-Za-z0-9_]`, exactly the meaning of a
  word-boundary assertion for the escaped literal);
* an exception check compiles the escaped pattern with the case-insensitive
  flag and no boundary, modelled by `substrTest`;
* the price regex `[$£€]\s?\d+(?:[.,]\d\x7b1,2\x7d)?` with the global flag is
  modelled by `scanAmounts`, which returns the list of non-overlapping
  leftmost matches, resuming after each match, with greedy digit runs and a
  greedy optional 1-2 digit fraction, exactly the backtracking-free behaviour
  of that pattern (a whitespace after the symbol is kept only when a digit
  follows, since `\s` and `\d` are disjoint);
* the global symbol regex `[$£€]` is modelled by `rawSymbols`.

The ambient clock reads (`Date.now()`, `getUtcDay()`) are passed as
parameters, and mutable `Map`s are modelled as functions with pointwise
update.  External fallible calls (`message.reply`, channel resolution,
`channel.send`) are passed as `Except`/`Option` valued outcomes.
-/

abbrev Str := List Char

/-- A word character in the sense of a word-boundary assertion: [A-Za-z0-9_]. -/
def isWordChar (c : Char) : Bool :=
  c.isAlphanum || c = '_'

/-- The three currency symbols of the price pattern. -/
def isCurrencySymbol (c : Char) : Bool :=
  c = '$' || c = '£' || c = '€'

/-- Whitespace in the sense of the `\s` character class. -/
def isJsSpace (c : Char) : Bool :=
  c = ' ' || c = '\t' || c = '\n' || c.toNat = 11 || c.toNat = 12 || c = '\r' ||
  c.toNat = 0xa0 || c.toNat = 0x1680 || (0x2000 ≤ c.toNat && c.toNat ≤ 0x200a) ||
  c.toNat = 0x2028 || c.toNat = 0x2029 || c.toNat = 0x202f || c.toNat = 0x205f ||
  c.toNat = 0x3000 || c.toNat = 0xfeff

/-- The escaped pattern matches literally, case-insensitively, at offset `i`. -/
def matchesAt (pat content : Str) (i : Nat) : Bool :=
  decide (i + pat.length ≤ content.length) &&
  decide (((content.drop i).take pat.length).map Char.toLower = pat.map Char.toLower)

/-- Whether the character at offset `i` (if any) is a word character. -/
def wordCharAt (content : Str) (i : Nat) : Bool :=
  match content[i]? with
  | some c => isWordChar c
  | none => false

/-- A word-boundary assertion holds at offset `i` of `content`. -/
def boundaryAt (content : Str) (i : Nat) : Bool :=
  (if i = 0 then false else wordCharAt content (i - 1)) != wordCharAt content i

/-- Test of a compiled whole-word check: the escaped term inside two word
boundaries, case-insensitive. -/
def wholeWordTest (term content : Str) : Bool :=
  (List.range (content.length + 1)).any fun i =>
    matchesAt term content i && boundaryAt content i && boundaryAt content (i + term.length)

/-- Test of a compiled exception check: escaped pattern, case-insensitive,
no boundary (plain substring). -/
def substrTest (pat content : Str) : Bool :=
  (List.range (content.length + 1)).any fun i => matchesAt pat content i

/-- The optional fraction part `(?:[.,]\d\x7b1,2\x7d)?`, greedy. -/
def fracPart : Str → Str
  | s :: d1 :: d2 :: _ =>
    if (s = '.' || s = ',') && d1.isDigit then
      if d2.isDigit then [s, d1, d2] else [s, d1]
    else []
  | [s, d1] =>
    if (s = '.' || s = ',') && d1.isDigit then [s, d1] else []
  | _ => []

/-- Greedy `\d+` run followed by the optional fraction. -/
def digitsAndFrac (cs : Str) : Str :=
  cs.takeWhile Char.isDigit ++ fracPart (cs.dropWhile Char.isDigit)

/-- Continuation of the price pattern after the currency symbol:
`\s?\d+(?:[.,]\d\x7b1,2\x7d)?`.  Returns the matched continuation. -/
def tryAfterSymbol : Str → Option Str
  | [] => none
  | c :: rest =>
    if c.isDigit then
      some (digitsAndFrac (c :: rest))
    else if isJsSpace c then
      match rest with
      | d :: _ => if d.isDigit then some (c :: digitsAndFrac rest) else none
      | [] => none
    else none

/-- Global scan of the price pattern: leftmost non-overlapping matches,
resuming after each match.  The fuel argument (initially the content length)
only forces termination and is never exhausted. -/
def scanAmountsAux : Nat → Str → List Str
  | 0, _ => []
  | _ + 1, [] => []
  | fuel + 1, c :: rest =>
    if isCurrencySymbol c then
      match tryAfterSymbol rest with
      | some m => (c :: m) :: scanAmountsAux fuel (rest.drop m.length)
      | none => scanAmountsAux fuel rest
    else scanAmountsAux fuel rest

/-- All matches of the symbol-amount price regex in the content. -/
def scanAmounts (content : Str) : List Str :=
  scanAmountsAux content.length content

/-- All matches of the global bare-symbol regex `[$£€]`, one single-character
string per occurrence. -/
def rawSymbols (content : Str) : List Str :=
  (content.filter isCurrencySymbol).map fun c => [c]

/-- First-occurrence de-duplication, the behaviour of spreading a `Set` built
from an array.  Fuel (initially the length) only forces termination. -/
def uniqAux {α : Type} [DecidableEq α] : Nat → List α → List α
  | 0, _ => []
  | _ + 1, [] => []
  | fuel + 1, x :: xs => x :: uniqAux fuel (xs.filter fun y => decide (y ≠ x))

/-- De-duplicated copy of a list keeping first occurrences. -/
def uniq {α : Type} [DecidableEq α] (l : List α) : List α :=
  uniqAux l.length l

/-- The configuration fields the detection-and-decision pipeline reads.
Defaults mirror the source constants. -/
structure Config where
  enablePricePattern : Bool
  restrictedTerms : List Str
  priceKeywords : List Str
  exceptionPatterns : List Str
  warningCooldownMs : Nat

/-- Compiled matcher collections; each check pairs the raw string with its
regex, whose test is modelled by `wholeWordTest` / `substrTest`. -/
structure Detectors where
  restrictedTermChecks : List Str
  exceptionChecks : List Str
  priceKeywordChecks : List Str

/-- buildDetectors: compile the three matcher collections from the config. -/
def buildDetectors (config : Config) : Detectors :=
  { restrictedTermChecks := config.restrictedTerms
    exceptionChecks := config.exceptionPatterns
    priceKeywordChecks := config.priceKeywords }

/-- The configuration produced by buildConfig with an empty environment:
DEFAULT_RESTRICTED_TERMS, DEFAULT_PRICE_KEYWORDS, default-enabled price
pattern, no exception patterns, DEFAULT_COOLDOWN_SECONDS = 0. -/
def defaultConfig : Config :=
  { enablePricePattern := true
    restrictedTerms := ["sell".data]
    priceKeywords := ["usd".data, "shipped".data]
    exceptionPatterns := []
    warningCooldownMs := 0 }

def defaultDetectors : Detectors :=
  buildDetectors defaultConfig

/-- The consolidated decision returned by detectContent. -/
structure Verdict where
  triggered : Bool
  matchedTerms : List Str
  matchedPriceSignals : List Str
  triggerTypes : List Str
deriving DecidableEq

/-- The trigger-type string pushed for term matches. -/
def wordMatchType : Str := "word match".data

/-- The trigger-type string pushed for price matches. -/
def pricePatternType : Str := "price pattern".data

/-- The restricted-term collection loop of detectContent. -/
def matchedTermsOf (content : Str) (detectors : Detectors) : List Str :=
  detectors.restrictedTermChecks.filter fun term => wholeWordTest term content

/-- The price-signal collection block of detectContent: symbol-amount
matches, then bare symbols, then keyword matches, when enabled. -/
def matchedPriceSignalsOf (content : Str) (detectors : Detectors) (config : Config) : List Str :=
  if config.enablePricePattern then
    scanAmounts content ++ rawSymbols content ++
      (detectors.priceKeywordChecks.filter fun keyword => wholeWordTest keyword content)
  else []

/-- The exception collection loop of detectContent. -/
def exceptionMatchesOf (content : Str) (detectors : Detectors) : List Str :=
  detectors.exceptionChecks.filter fun pat => substrTest pat content

/-- The triggerTypes pushes of detectContent. -/
def triggerTypesOf (uniqueTerms uniquePriceSignals : List Str) : List Str :=
  (if 0 < uniqueTerms.length then [wordMatchType] else []) ++
  (if 0 < uniquePriceSignals.length then [pricePatternType] else [])

/-- detectContent: collect all matches (terms, then price signals, then
exceptions), then one consolidated decision, with exception patterns
overriding positive matches. -/
def detectContent (content : Str) (detectors : Detectors) (config : Config) : Verdict :=
  if 0 < (exceptionMatchesOf content detectors).length then
    { triggered := false, matchedTerms := [], matchedPriceSignals := [], triggerTypes := [] }
  else
    { triggered := decide (0 <
        (triggerTypesOf (uniq (matchedTermsOf content detectors))
          (uniq (matchedPriceSignalsOf content detectors config))).length)
      matchedTerms := uniq (matchedTermsOf content detectors)
      matchedPriceSignals := uniq (matchedPriceSignalsOf content detectors config)
      triggerTypes :=
        triggerTypesOf (uniq (matchedTermsOf content detectors))
          (uniq (matchedPriceSignalsOf content detectors config)) }

/-- The text actually classified by onMessageCreate: absent message text is
replaced by the empty string. -/
def effectiveContent (content : Option Str) : Str :=
  match content with
  | some s => s
  | none => []

example :
    (detectContent "DM me, $400 shipped".data defaultDetectors defaultConfig).triggerTypes =
      [pricePatternType] := by decide

example :
    (detectContent "DM me, $400 shipped".data defaultDetectors defaultConfig).matchedPriceSignals =
      ["$400".data, "$".data, "shipped".data] := by decide

example :
    (detectContent "I want to sell my card".data defaultDetectors defaultConfig).matchedTerms =
      ["sell".data] := by decide

example : scanAmounts "£ 30 and €12.555 x".data = ["£ 30".data, "€12.55".data] := by decide

/-- The per-user, per-channel cooldown key, author id and channel id joined
by a colon. -/
def cooldownKey (authorId channelId : Str) : Str :=
  authorId ++ ':' :: channelId

/-- Pointwise update of a cooldown map, the effect of a `set` call. -/
def setTimestamp (cooldowns : Str → Option Nat) (key : Str) (now : Nat) :
    Str → Option Nat :=
  fun k => if k = key then some now else cooldowns k

/-- isCoolingDown: look up the cooldown key; a present, truthy (nonzero)
timestamp within the window suppresses without updating; otherwise the
current timestamp is recorded and nothing is suppressed.  The age check uses
integer subtraction, as timestamps are ordinary numbers in the source. -/
def isCoolingDown (cooldowns : Str → Option Nat) (authorId channelId : Str)
    (warningCooldownMs now : Nat) : Bool × (Str → Option Nat) :=
  match cooldowns (cooldownKey authorId channelId) with
  | some lastWarningAt =>
    if lastWarningAt ≠ 0 ∧ (now : Int) - (lastWarningAt : Int) < (warningCooldownMs : Int) then
      (true, cooldowns)
    else
      (false, setTimestamp cooldowns (cooldownKey authorId channelId) now)
  | none => (false, setTimestamp cooldowns (cooldownKey authorId channelId) now)

/-- In-memory daily counters.  The two count maps are modelled as total
count functions (a missing key reads as 0, the effect of `get(key) || 0`). -/
structure Metrics where
  day : Str
  triggersToday : Nat
  byChannel : Str → Nat
  byRule : Str → Nat

/-- bumpCount: add one to a key's counter. -/
def bumpCount (map : Str → Nat) (key : Str) : Str → Nat :=
  fun k => if k = key then map k + 1 else map k

/-- The UTC day-rollover reset at the top of bumpMetrics: when the stored
day differs from the current day, the day is set and the three counters are
cleared before the event's increments apply. -/
def rollDay (metrics : Metrics) (currentDay : Str) : Metrics :=
  if metrics.day = currentDay then metrics
  else
    { day := currentDay, triggersToday := 0, byChannel := fun _ => 0, byRule := fun _ => 0 }

/-- The metrics rule-key of a matched term. -/
def termRuleKey (term : Str) : Str :=
  "term:".data ++ term.map Char.toLower

/-- The metrics rule-key of a matched price signal. -/
def priceRuleKey (signal : Str) : Str :=
  "price:".data ++ signal.map Char.toLower

/-- bumpMetrics: roll the day if needed, then increment the daily total, the
event's channel counter, and one rule-key counter per matched term and per
matched price signal.  The current UTC day (read from the clock in the
source) is a parameter. -/
def bumpMetrics (metrics : Metrics) (channelId : Str) (detection : Verdict)
    (currentDay : Str) : Metrics :=
  let rolled := rollDay metrics currentDay
  { day := rolled.day
    triggersToday := rolled.triggersToday + 1
    byChannel := bumpCount rolled.byChannel channelId
    byRule :=
      detection.matchedPriceSignals.foldl (fun acc signal => bumpCount acc (priceRuleKey signal))
        (detection.matchedTerms.foldl (fun acc term => bumpCount acc (termRuleKey term))
          rolled.byRule) }

/-- Outcome of the audit-log attempt: delivered, skipped because no log
channel was found, or a caught failure turned into a diagnostic. -/
inductive LogOutcome
  | delivered
  | channelMissing
  | deliveryFailed (err : Str)
deriving DecidableEq

/-- sendModLog: resolution and send both run inside one try/catch, so a
thrown error on either side becomes a caught diagnostic value; a missing
channel skips the send with a diagnostic.  The two outward calls are passed
as outcomes: resolution yields a channel (`some`), not-found (`none`), or
throws; the send either succeeds or throws. -/
def sendModLog (resolveOutcome : Except Str (Option Unit))
    (sendOutcome : Except Str Unit) : LogOutcome :=
  match resolveOutcome with
  | Except.error e => LogOutcome.deliveryFailed e
  | Except.ok none => LogOutcome.channelMissing
  | Except.ok (some _) =>
    match sendOutcome with
    | Except.ok _ => LogOutcome.delivered
    | Except.error e => LogOutcome.deliveryFailed e

/-- Result of handleTriggeredMessage: whether a reply was attempted, the
warning status recorded for the log, the warning error text, the audit-log
outcome, and the cooldown map after the event. -/
structure TriggerOutcome where
  warningAttempted : Bool
  warningStatus : Str
  warningError : Str
  logOutcome : LogOutcome
  cooldowns : Str → Option Nat

/-- handleTriggeredMessage: a cooldown check gates the reply; a reply
failure is caught and downgraded to status failed with the error text; the
mod-log attempt happens in every case.  The outward reply call is passed as
an outcome. -/
def handleTriggeredMessage (cooldowns : Str → Option Nat) (authorId channelId : Str)
    (warningCooldownMs now : Nat) (replyOutcome : Except Str Unit)
    (resolveOutcome : Except Str (Option Unit)) (sendOutcome : Except Str Unit) :
    TriggerOutcome :=
  let r := isCoolingDown cooldowns authorId channelId warningCooldownMs now
  if r.1 then
    { warningAttempted := false
      warningStatus := "cooldown_suppressed".data
      warningError := []
      logOutcome := sendModLog resolveOutcome sendOutcome
      cooldowns := r.2 }
  else
    match replyOutcome with
    | Except.ok _ =>
      { warningAttempted := true
        warningStatus := "sent".data
        warningError := []
        logOutcome := sendModLog resolveOutcome sendOutcome
        cooldowns := r.2 }
    | Except.error e =>
      { warningAttempted := true
        warningStatus := "failed".data
        warningError := e
        logOutcome := sendModLog resolveOutcome sendOutcome
        cooldowns := r.2 }

example :
    (isCoolingDown (setTimestamp (fun _ => none) (cooldownKey "u".data "c".data) 5)
      "u".data "c".data 10 6).1 = true := by decide

example :
    (isCoolingDown (setTimestamp (fun _ => none) (cooldownKey "u".data "c".data) 5)
      "u".data "c".data 10 6).2 (cooldownKey "u".data "c".data) = some 5 := by decide

/-! ### Helper lemmas -/

theorem mem_uniqAux {α : Type} [DecidableEq α] (a : α) :
    ∀ (fuel : Nat) (l : List α), l.length ≤ fuel → (a ∈ uniqAux fuel l ↔ a ∈ l) := by
  intro fuel
  induction fuel with
  | zero =>
    intro l hl
    have h0 : l = [] := List.length_eq_zero.mp (Nat.le_zero.mp hl)
    subst h0
    simp [uniqAux]
  | succ fuel ih =>
    intro l hl
    cases l with
    | nil => simp [uniqAux]
    | cons x xs =>
      have hxs : xs.length ≤ fuel := by
        simpa using Nat.lt_succ_iff.mp (Nat.lt_of_lt_of_le (by simp) hl)
      have hlen : (xs.filter fun y => decide (y ≠ x)).length ≤ fuel :=
        le_trans (List.length_filter_le _ _) hxs
      simp only [uniqAux, List.mem_cons, ih _ hlen, List.mem_filter, decide_eq_true_eq]
      by_cases hax : a = x
      · simp [hax]
      · simp [hax]

theorem mem_uniq {α : Type} [DecidableEq α] (a : α) (l : List α) :
    a ∈ uniq l ↔ a ∈ l :=
  mem_uniqAux a l.length l le_rfl

theorem nodup_uniqAux {α : Type} [DecidableEq α] :
    ∀ (fuel : Nat) (l : List α), l.length ≤ fuel → (uniqAux fuel l).Nodup := by
  intro fuel
  induction fuel with
  | zero => intro l _; simp [uniqAux]
  | succ fuel ih =>
    intro l hl
    cases l with
    | nil => simp [uniqAux]
    | cons x xs =>
      have hxs : xs.length ≤ fuel := by
        simpa using Nat.lt_succ_iff.mp (Nat.lt_of_lt_of_le (by simp) hl)
      have hlen : (xs.filter fun y => decide (y ≠ x)).length ≤ fuel :=
        le_trans (List.length_filter_le _ _) hxs
      simp only [uniqAux, List.nodup_cons]
      refine ⟨fun hmem => ?_, ih _ hlen⟩
      have := (mem_uniqAux x fuel _ hlen).mp hmem
      simp [List.mem_filter] at this

theorem nodup_uniq {α : Type} [DecidableEq α] (l : List α) : (uniq l).Nodup :=
  nodup_uniqAux l.length l le_rfl

theorem uniq_eq_nil {α : Type} [DecidableEq α] (l : List α) :
    uniq l = [] ↔ l = [] := by
  cases l with
  | nil => simp [uniq, uniqAux]
  | cons x xs => simp [uniq, uniqAux]

theorem wordMatchType_ne_pricePatternType : wordMatchType ≠ pricePatternType := by
  decide

theorem mem_triggerTypesOf_word (a b : List Str) :
    wordMatchType ∈ triggerTypesOf a b ↔ 0 < a.length := by
  by_cases h1 : 0 < a.length <;> by_cases h2 : 0 < b.length <;>
    simp [triggerTypesOf, h1, h2, wordMatchType_ne_pricePatternType]

theorem mem_triggerTypesOf_price (a b : List Str) :
    pricePatternType ∈ triggerTypesOf a b ↔ 0 < b.length := by
  have hne : pricePatternType ≠ wordMatchType := Ne.symm wordMatchType_ne_pricePatternType
  by_cases h1 : 0 < a.length <;> by_cases h2 : 0 < b.length <;>
    simp [triggerTypesOf, h1, h2, hne]

theorem triggerTypesOf_length_pos (a b : List Str) :
    0 < (triggerTypesOf a b).length ↔ (0 < a.length ∨ 0 < b.length) := by
  by_cases h1 : 0 < a.length <;> by_cases h2 : 0 < b.length <;>
    simp [triggerTypesOf, h1, h2]

theorem exceptionMatchesOf_eq_nil (content : Str) (d : Detectors)
    (hex : ∀ p ∈ d.exceptionChecks, substrTest p content = false) :
    exceptionMatchesOf content d = [] := by
  refine List.filter_eq_nil_iff.mpr fun p hp => ?_
  simp [hex p hp]

theorem detectContent_of_no_exception (content : Str) (d : Detectors) (cfg : Config)
    (hex : ∀ p ∈ d.exceptionChecks, substrTest p content = false) :
    detectContent content d cfg =
      { triggered := decide (0 <
          (triggerTypesOf (uniq (matchedTermsOf content d))
            (uniq (matchedPriceSignalsOf content d cfg))).length)
        matchedTerms := uniq (matchedTermsOf content d)
        matchedPriceSignals := uniq (matchedPriceSignalsOf content d cfg)
        triggerTypes :=
          triggerTypesOf (uniq (matchedTermsOf content d))
            (uniq (matchedPriceSignalsOf content d cfg)) } := by
  have h := exceptionMatchesOf_eq_nil content d hex
  simp [detectContent, h]

theorem detectContent_of_exception (content : Str) (d : Detectors) (cfg : Config)
    (p : Str) (hp : p ∈ d.exceptionChecks) (hm : substrTest p content = true) :
    detectContent content d cfg =
      { triggered := false, matchedTerms := [], matchedPriceSignals := [],
        triggerTypes := [] } := by
  have hmem : p ∈ exceptionMatchesOf content d :=
    List.mem_filter.mpr ⟨hp, hm⟩
  have h : 0 < (exceptionMatchesOf content d).length := List.length_pos_of_mem hmem
  simp [detectContent, h]

theorem boundaryAt_nil (i : Nat) : boundaryAt [] i = false := by
  simp [boundaryAt, wordCharAt]

theorem wholeWordTest_nil (t : Str) : wholeWordTest t [] = false := by
  simp [wholeWordTest, boundaryAt_nil]

theorem detectContent_nil_triggered (d : Detectors) (cfg : Config) :
    (detectContent [] d cfg).triggered = false := by
  by_cases hex : 0 < (exceptionMatchesOf [] d).length
  · simp [detectContent, hex]
  · have hterms : matchedTermsOf [] d = [] := by
      refine List.filter_eq_nil_iff.mpr fun t _ => ?_
      simp [wholeWordTest_nil]
    have hprice : matchedPriceSignalsOf [] d cfg = [] := by
      cases hcfg : cfg.enablePricePattern with
      | false => simp [matchedPriceSignalsOf, hcfg]
      | true =>
        have hkw : (d.priceKeywordChecks.filter fun k => wholeWordTest k []) = [] := by
          refine List.filter_eq_nil_iff.mpr fun t _ => ?_
          simp [wholeWordTest_nil]
        simp [matchedPriceSignalsOf, hcfg, hkw, scanAmounts, scanAmountsAux, rawSymbols]
    simp [detectContent, hex, hterms, hprice, uniq, uniqAux, triggerTypesOf]

theorem foldl_bumpCount_apply (f : Str → Str) (xs : List Str) (map : Str → Nat) (k : Str) :
    (xs.foldl (fun acc x => bumpCount acc (f x)) map) k = map k + (xs.map f).count k := by
  induction xs generalizing map with
  | nil => simp
  | cons x xs ih =>
    simp only [List.foldl_cons, List.map_cons, ih, List.count_cons]
    by_cases hk : k = f x
    · simp only [bumpCount, hk, if_pos rfl, beq_self_eq_true, if_true]
      omega
    · simp [bumpCount, hk, Ne.symm hk]

theorem bumpMetrics_byRule_apply (mm : Metrics) (ch : Str) (v : Verdict) (day k : Str) :
    (bumpMetrics mm ch v day).byRule k =
      (rollDay mm day).byRule k + (v.matchedTerms.map termRuleKey).count k
        + (v.matchedPriceSignals.map priceRuleKey).count k := by
  simp [bumpMetrics, foldl_bumpCount_apply]

theorem tryAfterSymbol_ne_nil (cs m : Str) (h : tryAfterSymbol cs = some m) : m ≠ [] := by
  match cs with
  | [] => simp [tryAfterSymbol] at h
  | c :: rest =>
    simp only [tryAfterSymbol] at h
    by_cases hd : c.isDigit
    · simp only [hd, if_true] at h
      have : m = digitsAndFrac (c :: rest) := by
        cases h
        rfl
      subst this
      simp [digitsAndFrac, List.takeWhile_cons, hd]
    · simp only [hd] at h
      by_cases hs : isJsSpace c
      · simp only [hs, if_true] at h
        match rest with
        | [] => simp at h
        | d :: rest' =>
          by_cases hdd : d.isDigit
          · simp only [hdd, if_true] at h
            cases h
            simp
          · simp [hdd] at h
      · simp [hs] at h

theorem mem_scanAmountsAux :
    ∀ (fuel : Nat) (cs : List Char) (m : Str), m ∈ scanAmountsAux fuel cs →
      ∃ c rest, m = c :: rest ∧ isCurrencySymbol c = true ∧ rest ≠ [] ∧ c ∈ cs := by
  intro fuel
  induction fuel with
  | zero => intro cs m hm; simp [scanAmountsAux] at hm
  | succ fuel ih =>
    intro cs m hm
    cases cs with
    | nil => simp [scanAmountsAux] at hm
    | cons c rest =>
      simp only [scanAmountsAux] at hm
      by_cases hc : isCurrencySymbol c
      · simp only [hc, if_true] at hm
        cases htry : tryAfterSymbol rest with
        | some m' =>
          rw [htry] at hm
          rcases List.mem_cons.mp hm with h | h
          · exact ⟨c, m', h, hc, tryAfterSymbol_ne_nil rest m' htry, List.mem_cons_self c rest⟩
          · obtain ⟨c', rest', hm', hcur', hne', hmem'⟩ := ih _ m h
            exact ⟨c', rest', hm', hcur', hne',
              List.mem_cons_of_mem c (List.drop_subset _ rest hmem')⟩
        | none =>
          rw [htry] at hm
          obtain ⟨c', rest', hm', hcur', hne', hmem'⟩ := ih _ m hm
          exact ⟨c', rest', hm', hcur', hne', List.mem_cons_of_mem c hmem'⟩
      · simp only [hc, if_false] at hm
        obtain ⟨c', rest', hm', hcur', hne', hmem'⟩ := ih _ m hm
        exact ⟨c', rest', hm', hcur', hne', List.mem_cons_of_mem c hmem'⟩

theorem mem_scanAmounts (content : Str) (m : Str) (hm : m ∈ scanAmounts content) :
    ∃ c rest, m = c :: rest ∧ isCurrencySymbol c = true ∧ rest ≠ [] ∧ c ∈ content :=
  mem_scanAmountsAux content.length content m hm

theorem mem_rawSymbols (c : Char) (content : Str)
    (hcur : isCurrencySymbol c = true) (hc : c ∈ content) :
    [c] ∈ rawSymbols content :=
  List.mem_map.mpr ⟨c, List.mem_filter.mpr ⟨hc, hcur⟩, rfl⟩

/-! ### Claim theorems -/

/-- C1: if any configured exception pattern matches the text as a
case-insensitive substring, the Verdict has triggered = false and
matchedTerms, matchedPriceSignals and triggerTypes all empty, regardless of
any restricted-term or price-signal matches. -/
theorem exception_match_forces_untriggered_verdict (content : Str) (d : Detectors)
    (cfg : Config) (p : Str) (hp : p ∈ d.exceptionChecks)
    (hm : substrTest p content = true) :
    (detectContent content d cfg).triggered = false ∧
    (detectContent content d cfg).matchedTerms = [] ∧
    (detectContent content d cfg).matchedPriceSignals = [] ∧
    (detectContent content d cfg).triggerTypes = [] := by
  rw [detectContent_of_exception content d cfg p hp hm]
  exact ⟨rfl, rfl, rfl, rfl⟩

/-- The configuration of the round-trip scenario: default rules plus one
exception pattern. -/
def exceptionConfig : Config :=
  { enablePricePattern := true
    restrictedTerms := ["sell".data]
    priceKeywords := ["usd".data, "shipped".data]
    exceptionPatterns := ["sell my card".data]
    warningCooldownMs := 0 }

def exceptionDetectors : Detectors :=
  buildDetectors exceptionConfig

theorem exception_match_forces_untriggered_verdict_witness :
    (detectContent "I want to SELL my card for $50".data exceptionDetectors
      exceptionConfig).triggered = false :=
  (exception_match_forces_untriggered_verdict _ _ _ "sell my card".data
    (by decide) (by decide)).1

/-- C2: with no exception match, triggered is true iff matchedTerms or
matchedPriceSignals is non-empty; the word-match trigger type is present iff
matchedTerms is non-empty, the price-pattern trigger type iff
matchedPriceSignals is non-empty; and any configured restricted term
contained in the text as a whole word (case-insensitive) puts the word-match
trigger type into triggerTypes. -/
theorem verdict_trigger_types_characterization (content : Str) (d : Detectors)
    (cfg : Config) (t : Str)
    (hex : ∀ p ∈ d.exceptionChecks, substrTest p content = false) :
    ((detectContent content d cfg).triggered = true ↔
      ((detectContent content d cfg).matchedTerms ≠ [] ∨
        (detectContent content d cfg).matchedPriceSignals ≠ [])) ∧
    (wordMatchType ∈ (detectContent content d cfg).triggerTypes ↔
      (detectContent content d cfg).matchedTerms ≠ []) ∧
    (pricePatternType ∈ (detectContent content d cfg).triggerTypes ↔
      (detectContent content d cfg).matchedPriceSignals ≠ []) ∧
    (t ∈ d.restrictedTermChecks → wholeWordTest t content = true →
      wordMatchType ∈ (detectContent content d cfg).triggerTypes) := by
  rw [detectContent_of_no_exception content d cfg hex]
  dsimp only
  refine ⟨?_, ?_, ?_, fun ht hw => ?_⟩
  · rw [decide_eq_true_eq, triggerTypesOf_length_pos, List.length_pos, List.length_pos]
  · rw [mem_triggerTypesOf_word, List.length_pos]
  · rw [mem_triggerTypesOf_price, List.length_pos]
  · have hmem : t ∈ uniq (matchedTermsOf content d) :=
      (mem_uniq t _).mpr (List.mem_filter.mpr ⟨ht, hw⟩)
    exact (mem_triggerTypesOf_word _ _).mpr (List.length_pos_of_mem hmem)

theorem verdict_trigger_types_characterization_witness :
    wordMatchType ∈
      (detectContent "I want to sell my card".data defaultDetectors
        defaultConfig).triggerTypes :=
  (verdict_trigger_types_characterization _ _ _ "sell".data
    (by intro p hp; simp [defaultDetectors, buildDetectors, defaultConfig] at hp)).2.2.2
    (by decide) (by decide)

/-- C9: an absent message text is classified as the empty string, and the
classification of the empty string never triggers, whatever the compiled
detectors and configuration are. -/
theorem absent_text_classified_as_empty_and_untriggered (d : Detectors) (cfg : Config) :
    effectiveContent none = [] ∧
    (detectContent (effectiveContent none) d cfg).triggered = false :=
  ⟨rfl, detectContent_nil_triggered d cfg⟩

/-- A configuration whose restricted term is not lower-cased. -/
def mixedCaseConfig : Config :=
  { enablePricePattern := false
    restrictedTerms := ["Sell".data]
    priceKeywords := []
    exceptionPatterns := []
    warningCooldownMs := 0 }

def mixedCaseDetectors : Detectors :=
  buildDetectors mixedCaseConfig

/-- A configuration with two restricted terms differing only in case. -/
def caseTwinConfig : Config :=
  { enablePricePattern := false
    restrictedTerms := ["Sell".data, "sell".data]
    priceKeywords := []
    exceptionPatterns := []
    warningCooldownMs := 0 }

def caseTwinDetectors : Detectors :=
  buildDetectors caseTwinConfig

/-- C7 counterexample: matched terms are stored as configured, not
lower-cased (the term `Sell` is stored with its capital letter), and
de-duplication is exact rather than case-insensitive (terms `Sell` and
`sell` both remain in matchedTerms of one message). -/
theorem matched_values_not_lowercased_counterexample :
    (detectContent "Sell it".data mixedCaseDetectors mixedCaseConfig).matchedTerms =
      ["Sell".data] ∧
    ¬ (∀ t ∈ (detectContent "Sell it".data mixedCaseDetectors mixedCaseConfig).matchedTerms,
        t.map Char.toLower = t) ∧
    (detectContent "sell it".data caseTwinDetectors caseTwinConfig).matchedTerms =
      ["Sell".data, "sell".data] := by decide

/-- C7 amended: matchedTerms and matchedPriceSignals are exactly
de-duplicated (no element appears twice), and matched terms are stored
verbatim as configured; values are lower-cased only when metric rule-keys
are formed, not in the Verdict itself. -/
theorem matched_lists_verbatim_and_exactly_deduplicated (content : Str) (d : Detectors)
    (cfg : Config) :
    (detectContent content d cfg).matchedTerms.Nodup ∧
    (detectContent content d cfg).matchedPriceSignals.Nodup ∧
    (∀ t, t ∈ (detectContent content d cfg).matchedTerms →
      t ∈ d.restrictedTermChecks) := by
  by_cases hex : 0 < (exceptionMatchesOf content d).length
  · simp [detectContent, hex]
  · unfold detectContent
    rw [if_neg hex]
    refine ⟨nodup_uniq _, nodup_uniq _, fun t ht => ?_⟩
    have hmem := (mem_uniq t _).mp ht
    exact (List.mem_filter.mp hmem).1

theorem matched_lists_verbatim_and_exactly_deduplicated_witness :
    "sell".data ∈ defaultDetectors.restrictedTermChecks :=
  (matched_lists_verbatim_and_exactly_deduplicated "I want to sell my card".data
    defaultDetectors defaultConfig).2.2 "sell".data (by decide)

/-- C5: with price-pattern detection enabled and no exception match, a text
matched by the symbol-amount pattern, or containing a bare currency symbol,
or containing a configured price keyword as a whole word, yields the
price-pattern trigger type; and the end-to-end default-configuration run on
the message `DM me, $400 shipped` triggers with exactly the price-pattern
type and matchedPriceSignals including `$400` and `shipped`. -/
theorem price_pattern_trigger_sufficiency (content : Str) (d : Detectors) (cfg : Config)
    (hp : cfg.enablePricePattern = true)
    (hex : ∀ p ∈ d.exceptionChecks, substrTest p content = false)
    (hsig : scanAmounts content ≠ [] ∨ (∃ c, c ∈ content ∧ isCurrencySymbol c = true) ∨
      (∃ k, k ∈ d.priceKeywordChecks ∧ wholeWordTest k content = true)) :
    pricePatternType ∈ (detectContent content d cfg).triggerTypes ∧
    (detectContent "DM me, $400 shipped".data defaultDetectors defaultConfig).triggered
      = true ∧
    (detectContent "DM me, $400 shipped".data defaultDetectors defaultConfig).triggerTypes
      = [pricePatternType] ∧
    "$400".data ∈ (detectContent "DM me, $400 shipped".data defaultDetectors
      defaultConfig).matchedPriceSignals ∧
    "shipped".data ∈ (detectContent "DM me, $400 shipped".data defaultDetectors
      defaultConfig).matchedPriceSignals := by
  refine ⟨?_, by decide, by decide, by decide, by decide⟩
  rw [detectContent_of_no_exception content d cfg hex]
  dsimp only
  refine (mem_triggerTypesOf_price _ _).mpr (List.length_pos.mpr fun hnil => ?_)
  have hBne : matchedPriceSignalsOf content d cfg ≠ [] := by
    unfold matchedPriceSignalsOf
    rw [hp, if_pos rfl]
    intro hcat
    rcases List.append_eq_nil.mp hcat with ⟨hcat2, hkw⟩
    rcases List.append_eq_nil.mp hcat2 with ⟨hscan, hraw⟩
    rcases hsig with h | ⟨c, hc, hcur⟩ | ⟨k, hk, hw⟩
    · exact h hscan
    · exact List.ne_nil_of_mem (mem_rawSymbols c content hcur hc) hraw
    · exact List.ne_nil_of_mem (List.mem_filter.mpr ⟨hk, hw⟩) hkw
  exact hBne ((uniq_eq_nil _).mp hnil)

theorem price_pattern_trigger_sufficiency_witness :
    pricePatternType ∈
      (detectContent "£ 30".data defaultDetectors defaultConfig).triggerTypes :=
  (price_pattern_trigger_sufficiency "£ 30".data defaultDetectors defaultConfig rfl
    (by intro p hp; simp [defaultDetectors, buildDetectors, defaultConfig] at hp)
    (Or.inl (by decide))).1

/-- C10: whenever the symbol-amount pattern yields a match `m` (with price
detection enabled and no exception match), the bare one-character currency
symbol heading `m` is collected independently, so matchedPriceSignals
contains both `m` and the bare symbol as distinct elements, and one update
of the metrics increments two distinct price rule-keys. -/
theorem symbol_amount_match_implies_bare_symbol_signal (content : Str) (d : Detectors)
    (cfg : Config) (hp : cfg.enablePricePattern = true)
    (hex : ∀ p ∈ d.exceptionChecks, substrTest p content = false)
    (m : Str) (hm : m ∈ scanAmounts content) (c : Char) (rest : Str)
    (hc : m = c :: rest) (mm : Metrics) (ch day : Str) :
    [c] ∈ (detectContent content d cfg).matchedPriceSignals ∧
    m ∈ (detectContent content d cfg).matchedPriceSignals ∧
    m ≠ [c] ∧ priceRuleKey m ≠ priceRuleKey [c] ∧
    (rollDay mm day).byRule (priceRuleKey m) + 1 ≤
      (bumpMetrics mm ch (detectContent content d cfg) day).byRule (priceRuleKey m) ∧
    (rollDay mm day).byRule (priceRuleKey [c]) + 1 ≤
      (bumpMetrics mm ch (detectContent content d cfg) day).byRule (priceRuleKey [c]) := by
  obtain ⟨c', rest', hm', hcur', hne', hmemc⟩ := mem_scanAmounts content m hm
  rw [hc] at hm'
  injection hm' with h1 h2
  subst h1
  subst h2
  have hrest : rest ≠ [] := hne'
  have hmne : m ≠ [c] := by
    rw [hc]
    intro h
    injection h with _ h2
    exact hrest h2
  have hkeyne : priceRuleKey m ≠ priceRuleKey [c] := by
    intro h
    have hlen := congrArg List.length h
    simp [priceRuleKey, hc] at hlen
    exact hrest hlen
  have hmB : m ∈ matchedPriceSignalsOf content d cfg := by
    unfold matchedPriceSignalsOf
    rw [hp, if_pos rfl]
    exact List.mem_append.mpr (Or.inl (List.mem_append.mpr (Or.inl hm)))
  have hcB : [c] ∈ matchedPriceSignalsOf content d cfg := by
    unfold matchedPriceSignalsOf
    rw [hp, if_pos rfl]
    exact List.mem_append.mpr
      (Or.inl (List.mem_append.mpr (Or.inr (mem_rawSymbols c content hcur' hmemc))))
  have hverdict :
      (detectContent content d cfg).matchedPriceSignals =
        uniq (matchedPriceSignalsOf content d cfg) := by
    rw [detectContent_of_no_exception content d cfg hex]
  have hmV : m ∈ (detectContent content d cfg).matchedPriceSignals := by
    rw [hverdict]
    exact (mem_uniq m _).mpr hmB
  have hcV : [c] ∈ (detectContent content d cfg).matchedPriceSignals := by
    rw [hverdict]
    exact (mem_uniq [c] _).mpr hcB
  refine ⟨hcV, hmV, hmne, hkeyne, ?_, ?_⟩
  · rw [bumpMetrics_byRule_apply]
    have : 0 < ((detectContent content d cfg).matchedPriceSignals.map priceRuleKey).count
        (priceRuleKey m) := List.count_pos_iff.mpr (List.mem_map.mpr ⟨m, hmV, rfl⟩)
    omega
  · rw [bumpMetrics_byRule_apply]
    have : 0 < ((detectContent content d cfg).matchedPriceSignals.map priceRuleKey).count
        (priceRuleKey [c]) := List.count_pos_iff.mpr (List.mem_map.mpr ⟨[c], hcV, rfl⟩)
    omega

theorem symbol_amount_match_implies_bare_symbol_signal_witness :
    "$".data ∈
      (detectContent "DM me, $400 shipped".data defaultDetectors
        defaultConfig).matchedPriceSignals :=
  (symbol_amount_match_implies_bare_symbol_signal "DM me, $400 shipped".data
    defaultDetectors defaultConfig rfl
    (by intro p hp; simp [defaultDetectors, buildDetectors, defaultConfig] at hp)
    "$400".data (by decide) '$' "400".data (by decide)
    { day := "2025-01-01".data, triggersToday := 0, byChannel := fun _ => 0,
      byRule := fun _ => 0 } "chan".data "2025-01-01".data).1

/-- C3: with no prior entry the tracker allows and records the timestamp; a
second trigger for the same key strictly within the window is suppressed;
once the window has elapsed the next trigger is allowed and re-recorded; and
with a zero duration the tracker never suppresses but still records.  A
recorded timestamp is taken positive (the source reads the clock as epoch
milliseconds, and a zero entry is falsy there), and elapsed time is
expressed as `t + e` with the clock taken non-decreasing. -/
theorem cooldown_window_suppression (m : Str → Option Nat) (a ch : Str)
    (D t e now : Nat) :
    (m (cooldownKey a ch) = none →
      isCoolingDown m a ch D now = (false, setTimestamp m (cooldownKey a ch) now)) ∧
    (m (cooldownKey a ch) = some t → 0 < t → e < D →
      isCoolingDown m a ch D (t + e) = (true, m)) ∧
    (m (cooldownKey a ch) = some t → D ≤ e →
      isCoolingDown m a ch D (t + e) =
        (false, setTimestamp m (cooldownKey a ch) (t + e))) ∧
    (m (cooldownKey a ch) = some t → t ≤ now →
      isCoolingDown m a ch 0 now = (false, setTimestamp m (cooldownKey a ch) now)) := by
  refine ⟨fun h => ?_, fun h ht he => ?_, fun h hD => ?_, fun h ht => ?_⟩
  · simp [isCoolingDown, h]
  · simp only [isCoolingDown, h]
    rw [if_pos ⟨by omega, by push_cast; omega⟩]
  · simp only [isCoolingDown, h]
    rw [if_neg (by rintro ⟨h1, h2⟩; push_cast at h2; omega)]
  · simp only [isCoolingDown, h]
    rw [if_neg (by rintro ⟨h1, h2⟩; push_cast at h2; omega)]

/-- A cooldown map holding one recorded timestamp. -/
def c3map : Str → Option Nat :=
  setTimestamp (fun _ => none) (cooldownKey "u".data "c".data) 5

theorem cooldown_window_suppression_witness :
    isCoolingDown c3map "u".data "c".data 10 (5 + 3) = (true, c3map) :=
  (cooldown_window_suppression c3map "u".data "c".data 10 5 3 0).2.1
    (by decide) (by decide) (by decide)

/-- C8 counterexample: a trigger suppressed by the cooldown check does not
update the entry: with an entry recorded at 5 and a window of 10, a trigger
at 6 is suppressed and the entry still reads 5, not 6. -/
theorem cooldown_entry_not_refreshed_when_suppressed_counterexample :
    (isCoolingDown c3map "u".data "c".data 10 6).1 = true ∧
    (isCoolingDown c3map "u".data "c".data 10 6).2 (cooldownKey "u".data "c".data)
      ≠ some 6 ∧
    (isCoolingDown c3map "u".data "c".data 10 6).2 (cooldownKey "u".data "c".data)
      = some 5 := by
  decide

/-- C8 amended: the entry for the key is created or updated to the current
timestamp exactly when the cooldown check does not suppress; when it
suppresses, the whole map (hence the entry) is left unchanged; in both
cases no other key's entry changes. -/
theorem cooldown_entry_update_characterization (m : Str → Option Nat) (a ch : Str)
    (D now : Nat) :
    (∀ k, k ≠ cooldownKey a ch → (isCoolingDown m a ch D now).2 k = m k) ∧
    ((isCoolingDown m a ch D now).1 = false →
      (isCoolingDown m a ch D now).2 (cooldownKey a ch) = some now) ∧
    ((isCoolingDown m a ch D now).1 = true → (isCoolingDown m a ch D now).2 = m) := by
  unfold isCoolingDown
  cases hlook : m (cooldownKey a ch) with
  | none =>
    refine ⟨fun k hk => ?_, fun _ => ?_, fun habs => ?_⟩
    · simp [setTimestamp, hk]
    · simp [setTimestamp]
    · simp at habs
  | some last =>
    dsimp only
    by_cases hcond : last ≠ 0 ∧ (now : Int) - (last : Int) < (D : Int)
    · rw [if_pos hcond]
      exact ⟨fun k hk => rfl, fun habs => by simp at habs, fun _ => rfl⟩
    · rw [if_neg hcond]
      refine ⟨fun k hk => ?_, fun _ => ?_, fun habs => ?_⟩
      · simp [setTimestamp, hk]
      · simp [setTimestamp]
      · simp at habs

theorem cooldown_entry_update_characterization_witness :
    (isCoolingDown (fun _ => none) "u".data "c".data 10 5).2
      (cooldownKey "u".data "c".data) = some 5 :=
  (cooldown_entry_update_characterization (fun _ => none) "u".data "c".data 10 5).2.1
    (by decide)

/-- C4: on a day change the stored day is set and the counters are cleared
before the event's increments apply, so the first event of a new UTC day
ends with triggersToday = 1; after every update the stored day is the
current day; and every update adds one to triggersToday, one to the event's
channel counter, and one per matched term and per matched price signal to
the corresponding lower-cased rule-key counters. -/
theorem metrics_day_rollover_and_increments (mm : Metrics) (ch day : Str) (v : Verdict) :
    (bumpMetrics mm ch v day).day = day ∧
    (mm.day ≠ day → rollDay mm day =
      { day := day, triggersToday := 0, byChannel := fun _ => 0, byRule := fun _ => 0 }) ∧
    (mm.day ≠ day → (bumpMetrics mm ch v day).triggersToday = 1) ∧
    (bumpMetrics mm ch v day).triggersToday = (rollDay mm day).triggersToday + 1 ∧
    (∀ k, (bumpMetrics mm ch v day).byChannel k =
      (rollDay mm day).byChannel k + (if k = ch then 1 else 0)) ∧
    (∀ k, (bumpMetrics mm ch v day).byRule k =
      (rollDay mm day).byRule k + (v.matchedTerms.map termRuleKey).count k
        + (v.matchedPriceSignals.map priceRuleKey).count k) := by
  refine ⟨?_, fun h => ?_, fun h => ?_, rfl, fun k => ?_, fun k =>
    bumpMetrics_byRule_apply mm ch v day k⟩
  · by_cases h : mm.day = day
    · simp [bumpMetrics, rollDay, h]
    · simp [bumpMetrics, rollDay, h]
  · simp [rollDay, h]
  · simp [bumpMetrics, rollDay, h]
  · show bumpCount (rollDay mm day).byChannel ch k = _
    by_cases hk : k = ch
    · simp [bumpCount, hk]
    · simp [bumpCount, hk]

/-- Metrics carrying counts from a previous day. -/
def staleMetrics : Metrics :=
  { day := "2025-01-01".data, triggersToday := 7, byChannel := fun _ => 3,
    byRule := fun _ => 2 }

/-- A verdict with no matches, as a concrete metrics-update input. -/
def plainVerdict : Verdict :=
  { triggered := false, matchedTerms := [], matchedPriceSignals := [], triggerTypes := [] }

theorem metrics_day_rollover_and_increments_witness :
    (bumpMetrics staleMetrics "chan".data plainVerdict "2025-01-02".data).triggersToday
      = 1 :=
  (metrics_day_rollover_and_increments staleMetrics "chan".data "2025-01-02".data
    plainVerdict).2.2.1 (by decide)

/-- C6: a cooldown-suppressed trigger gets status cooldown_suppressed with no
reply attempt; a failing reply is caught and recorded as status failed with
the error text; a successful reply gets status sent; in all three cases the
audit-log composition and delivery attempt still happens; and a throwing log
resolution or log send is caught into a diagnostic value, never raised. -/
theorem warning_outcomes_and_log_always_attempted (cooldowns : Str → Option Nat)
    (a ch : Str) (D now : Nat) (replyOutcome : Except Str Unit)
    (resolveOutcome : Except Str (Option Unit)) (sendOutcome : Except Str Unit) :
    ((isCoolingDown cooldowns a ch D now).1 = true →
      (handleTriggeredMessage cooldowns a ch D now replyOutcome resolveOutcome
        sendOutcome).warningStatus = "cooldown_suppressed".data ∧
      (handleTriggeredMessage cooldowns a ch D now replyOutcome resolveOutcome
        sendOutcome).warningAttempted = false) ∧
    ((isCoolingDown cooldowns a ch D now).1 = false → replyOutcome = Except.ok () →
      (handleTriggeredMessage cooldowns a ch D now replyOutcome resolveOutcome
        sendOutcome).warningStatus = "sent".data ∧
      (handleTriggeredMessage cooldowns a ch D now replyOutcome resolveOutcome
        sendOutcome).warningAttempted = true) ∧
    (∀ e, (isCoolingDown cooldowns a ch D now).1 = false →
      replyOutcome = Except.error e →
      (handleTriggeredMessage cooldowns a ch D now replyOutcome resolveOutcome
        sendOutcome).warningStatus = "failed".data ∧
      (handleTriggeredMessage cooldowns a ch D now replyOutcome resolveOutcome
        sendOutcome).warningError = e ∧
      (handleTriggeredMessage cooldowns a ch D now replyOutcome resolveOutcome
        sendOutcome).warningAttempted = true) ∧
    ((handleTriggeredMessage cooldowns a ch D now replyOutcome resolveOutcome
        sendOutcome).logOutcome = sendModLog resolveOutcome sendOutcome) ∧
    (∀ e s, sendModLog (Except.error e) s = LogOutcome.deliveryFailed e) ∧
    (∀ e, sendModLog (Except.ok (some ())) (Except.error e)
      = LogOutcome.deliveryFailed e) := by
  refine ⟨fun hsup => ?_, fun hsup hok => ?_, fun e hsup herr => ?_, ?_,
    fun e s => rfl, fun e => rfl⟩
  · simp [handleTriggeredMessage, hsup]
  · simp [handleTriggeredMessage, hsup, hok]
  · simp [handleTriggeredMessage, hsup, herr]
  · unfold handleTriggeredMessage
    by_cases hsup : (isCoolingDown cooldowns a ch D now).1
    · simp [hsup]
    · cases replyOutcome with
      | ok u => simp [hsup]
      | error e => simp [hsup]

theorem warning_outcomes_and_log_always_attempted_witness :
    (handleTriggeredMessage c3map "u".data "c".data 10 6 (Except.ok ())
      (Except.ok (some ())) (Except.ok ())).warningStatus
      = "cooldown_suppressed".data :=
  ((warning_outcomes_and_log_always_attempted c3map "u".data "c".data 10 6
    (Except.ok ()) (Except.ok (some ())) (Except.ok ())).1 (by decide)).1
